import Mathlib

/-!
Verification development for the kor repository's extraction parser
(`src/kor/extraction/parser.py`) and dialog interpreter
(`src/kor/interpreter.py`).

Python dictionaries are embedded as insertion-ordered association lists
`List (String × V)` with Python `dict` semantics: lookup returns the first
(and, for genuine dicts, only) entry with the key; `dict.update` overwrites
existing keys in place and appends new keys in iteration order.
-/

namespace Kor

/-- A Python value as it appears in decoded model output and session
information: a string or a (string-keyed) dictionary. -/
inductive PyVal : Type where
  | str : String → PyVal
  | dict : List (String × PyVal) → PyVal

abbrev Dict := List (String × PyVal)

/-- Python `d[k]` / `k in d`, as an optional lookup: first entry whose key
equals `k`. -/
def dictGet {V : Type} (d : List (String × V)) (k : String) : Option V :=
  match d with
  | [] => none
  | (k0, v) :: rest => if k0 = k then some v else dictGet rest k

/-- Python `d[k] = v` as performed by `dict.update` entry-wise: overwrite in
place when the key exists, append otherwise. -/
def dictInsert {V : Type} (d : List (String × V)) (k : String) (v : V) :
    List (String × V) :=
  if (dictGet d k).isSome then
    d.map (fun p => if p.1 = k then (k, v) else p)
  else
    d ++ [(k, v)]

/-- Python `d.update(new)`: apply `new`'s entries in iteration order. -/
def dictUpdate {V : Type} (d new : List (String × V)) : List (String × V) :=
  new.foldl (fun acc p => dictInsert acc p.1 p.2) d

/-- `kor.exceptions.ParseError`. -/
structure ParseError : Type where
  message : String
deriving DecidableEq

/-- A Python exception as collected in an extraction result's `errors` list:
either a `ParseError` or a validation error produced by a `Validator`. -/
inductive PyException : Type where
  | parse : ParseError → PyException
  | validation : String → PyException

/-- `kor.extraction.typedefs.Extraction`: the TypedDict returned by
`KorParser.parse`. -/
structure Extraction : Type where
  data : Dict
  raw : String
  errors : List PyException
  validated_data : Dict

/-- Modelled from the spec: the schema node (`kor.nodes.Object`, not under
`src/`) handed to the parser; `parse` reads only its `id`. -/
structure SchemaObject : Type where
  id : String

/-- Modelled from the spec: a `Validator` (`kor.validators`, not under
`src/`) exposes `clean_data(data) -> (validated_data, errors)`. -/
structure Validator : Type where
  clean_data : PyVal → Dict × List PyException

/-- Modelled from the spec: an `Encoder` (`kor.encoders`, not under `src/`)
exposes `decode(text) -> mapping`, failing with a `ParseError` when the text
cannot be decoded. `KorParser` from `src/kor/extraction/parser.py`, carrying
its pluggable encoder as the `decode` field. -/
structure KorParser : Type where
  decode : String → Except ParseError Dict
  schema_ : SchemaObject
  validator : Option Validator

/-- The schema-mismatch error constructed at
`src/kor/extraction/parser.py:46-50`. -/
def schemaMismatchError : PyException :=
  .parse ⟨"The LLM has returned structured data which does not match the" ++
    " expected schema. Providing additional examples may help" ++
    " improve the parse."⟩

/-- `KorParser.parse` (`src/kor/extraction/parser.py:32-68`). -/
def KorParser.parse (p : KorParser) (text : String) : Extraction :=
  match p.decode text with
  | .error e => { data := [], raw := text, errors := [.parse e], validated_data := [] }
  | .ok data =>
    match dictGet data p.schema_.id with
    | none =>
      if data.isEmpty then
        { data := [], raw := text, errors := [], validated_data := [] }
      else
        { data := [], raw := text, errors := [schemaMismatchError], validated_data := [] }
    | some obj_data =>
      match p.validator with
      | some validator =>
        let cleaned := validator.clean_data obj_data
        { data := data, raw := text, errors := cleaned.2, validated_data := cleaned.1 }
      | none =>
        { data := data, raw := text, errors := [], validated_data := [] }

/-- Modelled from the spec: an `Option` schema node (`kor.elements`, not
under `src/`): a leaf with an id, a description and few-shot examples. -/
structure OptionEl : Type where
  id : String
  description : String
  examples : List String

/-- Modelled from the spec: the `AbstractInput` schema-node hierarchy
(`kor.elements`, not under `src/`), polymorphic over the variants Option,
Selection (an ordered sequence of Option children) and Form (an ordered
sequence of children of any variant). The `other` variant stands for any
`AbstractInput` subclass outside the three kinds supported by
`create_input_tree`, carrying its Python class name. -/
inductive Element : Type where
  | option : OptionEl → Element
  | selection (id : String) (description : String) (options : List OptionEl)
      (examples : List String) : Element
  | form (id : String) (description : String) (elements : List Element)
      (examples : List String) : Element
  | other (typeName : String) (id : String) : Element

/-- The `id` attribute of a schema node. -/
def Element.id : Element → String
  | .option o => o.id
  | .selection i _ _ _ => i
  | .form i _ _ _ => i
  | .other _ i => i

/-- The Python class name of a schema node, as rendered by
`f"Type \x7btype(input)\x7d is not supported."`. -/
def Element.typeName : Element → String
  | .option _ => "Option"
  | .selection _ _ _ _ => "Selection"
  | .form _ _ _ _ => "Form"
  | .other t _ => t

/-- The `isinstance(input, (elements.Option, elements.Selection,
elements.Form))` test at `src/kor/interpreter.py:78`. -/
def Element.isSupportedRoot : Element → Bool
  | .option _ => true
  | .selection _ _ _ _ => true
  | .form _ _ _ _ => true
  | .other _ _ => false

/-- The error raised at `src/kor/interpreter.py:79` when the root variant is
unsupported (the spec's `SchemaError` taxon). -/
structure SchemaError : Type where
  message : String
deriving DecidableEq

/-- `InputTree` (`src/kor/interpreter.py:64-70`): the Input Tree Index. -/
structure InputTree : Type where
  id_to_input : List (String × Element)

/-- `InputTree.resolve`: `self.id_to_input[id]`; `none` models the `KeyError`
on a missing id. -/
def InputTree.resolve (t : InputTree) (id : String) : Option Element :=
  dictGet t.id_to_input id

/-- The `while id_stack:` loop of `create_input_tree`
(`src/kor/interpreter.py:81-90`): pop the queue's front and record
`\x7binput.id: input\x7d`. The traversal body that would enqueue children is
commented out in the source, so nothing is ever pushed. -/
def bfsLoop : List Element → List (String × Element) → List (String × Element)
  | [], id_to_input => id_to_input
  | input :: id_stack, id_to_input => bfsLoop id_stack (dictInsert id_to_input input.id input)

/-- `create_input_tree` (`src/kor/interpreter.py:73-91`), with the raised
`AssertionError` modelled as the spec's `SchemaError`. -/
def create_input_tree (input : Element) : Except SchemaError InputTree :=
  if input.isSupportedRoot then
    .ok { id_to_input := bfsLoop [input] [] }
  else
    .error { message := "Type " ++ input.typeName ++ " is not supported." }

/-- `State` (`src/kor/interpreter.py:52-55`): immutable session snapshot. -/
structure State : Type where
  location_id : String
  information : Dict

/-- `State.update` (`src/kor/interpreter.py:57-61`): copy `information`,
merge `new_information` into the copy, return a replaced State. -/
def State.update (s : State) (new_information : Dict) : State :=
  { s with information := dictUpdate s.information new_information }

/-- `Intent` (`src/kor/interpreter.py:30-43`): the closed variant set
`\x7bUpdateIntent, NoOpIntent\x7d`. -/
inductive Intent : Type where
  | updateIntent (location_id : String) (information : Dict)
  | noOpIntent

/-- `Message` (`src/kor/interpreter.py:46-49`). -/
structure Message : Type where
  content : String
  success : Bool

mutual

/-- Python `repr` of a `PyVal`, used by the f-string in
`Automaton.update`'s success message: strings in single quotes, dicts in
braces with `key: value` entries. -/
def reprPyVal : PyVal → String
  | .str s => "\x27" ++ s ++ "\x27"
  | .dict d => "\x7b" ++ reprEntries d ++ "\x7d"

/-- Renders a dict's entries for `reprPyVal`. -/
def reprEntries : List (String × PyVal) → String
  | [] => ""
  | [(k, v)] => "\x27" ++ k ++ "\x27: " ++ reprPyVal v
  | (k, v) :: rest => "\x27" ++ k ++ "\x27: " ++ reprPyVal v ++ ", " ++ reprEntries rest

end

/-- `Automaton` (`src/kor/interpreter.py:94-129`): the Input Tree Index, the
current State and the append-only history `past_states`. -/
structure Automaton : Type where
  input_tree : InputTree
  state : State
  past_states : List State

/-- `Automaton.__init__` (`src/kor/interpreter.py:95-98`); the `Except`
propagates the `create_input_tree` failure. -/
def mkAutomaton (input : Element) : Except SchemaError Automaton :=
  (create_input_tree input).map fun tree =>
    { input_tree := tree
      state := { location_id := input.id, information := [] }
      past_states := [] }

/-- `Automaton.update` (`src/kor/interpreter.py:113-129`), returning the
updated automaton together with the `(new_state, message)` pair the method
returns. The `Intent` variant set is closed, so the unreachable
`NotImplemented` branch needs no case. -/
def Automaton.update (a : Automaton) : Intent → Automaton × State × Message
  | .updateIntent _ information =>
    let new_state := a.state.update information
    ({ a with state := new_state, past_states := a.past_states ++ [a.state] },
     new_state,
     { content := "OK! Updated. The new state is: " ++
         reprPyVal (.dict new_state.information) ++ ".",
       success := true })
  | .noOpIntent =>
    (a, a.state, { content := "Sorry I didn\x27t catch that.", success := false })

/-- Runs a sequence of `Automaton.update` calls, keeping the automaton. -/
def runIntents (a : Automaton) : List Intent → Automaton
  | [] => a
  | intent :: rest => runIntents (a.update intent).1 rest

/-- Applies `Automaton.update` with `NoOpIntent` `n` times. -/
def applyNoOpN (a : Automaton) : Nat → Automaton
  | 0 => a
  | n + 1 => ((applyNoOpN a n).update .noOpIntent).1

/-- A Python heap of dictionary objects, for stating that `State.update`
never mutates the dict object held by the original State: addresses are
indices of allocation order. -/
abbrev Heap := List Dict

/-- Dereference a heap address. -/
def heapGet : Heap → Nat → Dict
  | [], _ => []
  | d :: _, 0 => d
  | _ :: h, n + 1 => heapGet h n

/-- A State whose `information` lives on the heap at `info_addr`. -/
structure HState : Type where
  location_id : String
  info_addr : Nat

/-- `State.update` at the heap level (`src/kor/interpreter.py:57-61`):
`dict(self.information)` allocates a fresh copy at the next address, the
copy is merged in place, and the returned State points at the copy. -/
def pyStateUpdate (h : Heap) (s : HState) (new_information : Dict) : Heap × HState :=
  let updated_information := dictUpdate (heapGet h s.info_addr) new_information
  (h ++ [updated_information], { s with info_addr := h.length })

/-! Concrete fixtures used to evaluate the definitions on closed inputs. -/

/-- The `eat` Option of the source's test form (`src/kor/interpreter.py:222`). -/
def eatOption : OptionEl :=
  { id := "eat", description := "Specify that you want to eat", examples := [] }

/-- A Selection root with one declared Option child. -/
def doSelection : Element :=
  .selection "do" "select what you want to do" [eatOption] []

/-- A parser whose encoder always fails to decode. -/
def pFail : KorParser :=
  { decode := fun _ => .error { message := "malformed" }
    schema_ := { id := "s" }
    validator := none }

/-- A parser whose encoder decodes to a non-empty mapping without the schema id. -/
def pUnrelated : KorParser :=
  { decode := fun _ => .ok [("x", .str "1")]
    schema_ := { id := "s" }
    validator := none }

/-- A parser whose encoder decodes to an empty mapping. -/
def pEmptyDecode : KorParser :=
  { decode := fun _ => .ok []
    schema_ := { id := "s" }
    validator := none }

/-- A parser whose encoder decodes to a mapping containing the schema id. -/
def pHit : KorParser :=
  { decode := fun _ => .ok [("s", .str "v"), ("x", .str "w")]
    schema_ := { id := "s" }
    validator := none }

/-- A Form root used to exercise the automaton. -/
def stuffForm : Element :=
  .form "stuff" "form to specify what to do and what to watch" [] []

/-- The automaton `Automaton(stuffForm)` constructs. -/
def stuffAutomaton : Automaton :=
  { input_tree := { id_to_input := [("stuff", stuffForm)] }
    state := { location_id := "stuff", information := [] }
    past_states := [] }

/-- A concrete intent sequence: one update, one no-op. -/
def demoIntents : List Intent :=
  [.updateIntent "stuff" [("stuff", .str "eat")], .noOpIntent]

/-- A one-dict heap. -/
def demoHeap : Heap := [[("a", .str "1")]]

/-! Lemmas about the embedded Python dict operations. -/

theorem dictGet_append_single_self {V : Type} (d : List (String × V)) (k : String) (v : V)
    (h : dictGet d k = none) : dictGet (d ++ [(k, v)]) k = some v := by
  induction d with
  | nil => simp [dictGet]
  | cons p rest ih =>
    obtain ⟨k0, v0⟩ := p
    simp only [dictGet] at h ⊢
    by_cases hk : k0 = k
    · simp [hk] at h
    · simpa [hk] using ih (by simpa [hk] using h)

theorem dictGet_append_single_ne {V : Type} (d : List (String × V)) (k : String) (v : V)
    (a : String) (h : a ≠ k) : dictGet (d ++ [(k, v)]) a = dictGet d a := by
  induction d with
  | nil => simp [dictGet, Ne.symm h]
  | cons p rest ih =>
    obtain ⟨k0, v0⟩ := p
    by_cases hk : k0 = a <;> simp [dictGet, hk, ih]

theorem dictGet_map_subst_self {V : Type} (d : List (String × V)) (k : String) (v : V)
    (h : (dictGet d k).isSome) :
    dictGet (d.map fun p => if p.1 = k then (k, v) else p) k = some v := by
  induction d with
  | nil => simp [dictGet] at h
  | cons p rest ih =>
    obtain ⟨k0, v0⟩ := p
    simp only [List.map_cons]
    by_cases hk : k0 = k
    · subst hk
      rw [if_pos rfl]
      simp [dictGet]
    · simp only [dictGet, hk, if_false] at h
      simp only [if_neg hk]
      simpa [dictGet, hk] using ih h

theorem dictGet_map_subst_ne {V : Type} (d : List (String × V)) (k : String) (v : V)
    (a : String) (h : a ≠ k) :
    dictGet (d.map fun p => if p.1 = k then (k, v) else p) a = dictGet d a := by
  induction d with
  | nil => simp [dictGet]
  | cons p rest ih =>
    obtain ⟨k0, v0⟩ := p
    simp only [List.map_cons]
    by_cases hk : k0 = k
    · subst hk
      rw [if_pos rfl]
      simp [dictGet, Ne.symm h, ih]
    · simp only [if_neg hk]
      by_cases ha : k0 = a <;> simp [dictGet, hk, ha, ih]

theorem dictGet_insert_self {V : Type} (d : List (String × V)) (k : String) (v : V) :
    dictGet (dictInsert d k v) k = some v := by
  unfold dictInsert
  by_cases h : (dictGet d k).isSome
  · simpa [h] using dictGet_map_subst_self d k v h
  · have hn : dictGet d k = none := by
      cases hg : dictGet d k with
      | none => rfl
      | some w => simp [hg] at h
    simpa [h] using dictGet_append_single_self d k v hn

theorem dictGet_insert_ne {V : Type} (d : List (String × V)) (k : String) (v : V)
    (a : String) (h : a ≠ k) : dictGet (dictInsert d k v) a = dictGet d a := by
  unfold dictInsert
  by_cases hs : (dictGet d k).isSome
  · simpa [hs] using dictGet_map_subst_ne d k v a h
  · simpa [hs] using dictGet_append_single_ne d k v a h

theorem dictGet_eq_none_of_not_mem {V : Type} (d : List (String × V)) (k : String)
    (h : k ∉ d.map Prod.fst) : dictGet d k = none := by
  induction d with
  | nil => rfl
  | cons p rest ih =>
    obtain ⟨k0, v0⟩ := p
    simp only [List.map_cons, List.mem_cons, not_or] at h
    simp [dictGet, Ne.symm h.1, ih h.2]

theorem dictGet_update_not_mem {V : Type} (d new : List (String × V)) (k : String)
    (h : dictGet new k = none) : dictGet (dictUpdate d new) k = dictGet d k := by
  induction new generalizing d with
  | nil => rfl
  | cons p rest ih =>
    obtain ⟨k0, v0⟩ := p
    simp only [dictGet] at h
    by_cases hk : k0 = k
    · simp [hk] at h
    · have h2 : dictGet rest k = none := by simpa [hk] using h
      calc dictGet (dictUpdate (dictInsert d k0 v0) rest) k
          = dictGet (dictInsert d k0 v0) k := ih _ h2
        _ = dictGet d k := dictGet_insert_ne d k0 v0 k (fun hh => hk hh.symm)

theorem dictGet_update_mem {V : Type} (d new : List (String × V)) (k : String) (v : V)
    (hnd : (new.map Prod.fst).Nodup) (h : dictGet new k = some v) :
    dictGet (dictUpdate d new) k = some v := by
  induction new generalizing d with
  | nil => simp [dictGet] at h
  | cons p rest ih =>
    obtain ⟨k0, v0⟩ := p
    simp only [List.map_cons, List.nodup_cons] at hnd
    simp only [dictGet] at h
    by_cases hk : k0 = k
    · have hv : v0 = v := by simpa [hk] using h
      subst hk hv
      have hrest : dictGet rest k0 = none :=
        dictGet_eq_none_of_not_mem rest k0 hnd.1
      calc dictGet (dictUpdate (dictInsert d k0 v0) rest) k0
          = dictGet (dictInsert d k0 v0) k0 := dictGet_update_not_mem _ rest k0 hrest
        _ = some v0 := dictGet_insert_self d k0 v0
    · have h2 : dictGet rest k = some v := by simpa [hk] using h
      exact ih _ hnd.2 h2

theorem dictGet_update_isSome {V : Type} (d new : List (String × V)) (a : String)
    (h : (dictGet d a).isSome) : (dictGet (dictUpdate d new) a).isSome := by
  induction new generalizing d with
  | nil => exact h
  | cons p rest ih =>
    obtain ⟨k0, v0⟩ := p
    apply ih
    by_cases hk : a = k0
    · subst hk
      simp [dictGet_insert_self d a v0]
    · simpa [dictGet_insert_ne d k0 v0 a hk] using h

/-! Lemmas about the heap model and the automaton. -/

theorem heapGet_append_lt (h : Heap) (x : Dict) (a : Nat) (ha : a < h.length) :
    heapGet (h ++ [x]) a = heapGet h a := by
  induction h generalizing a with
  | nil => simp at ha
  | cons d rest ih =>
    cases a with
    | zero => rfl
    | succ n => exact ih n (by simpa using ha)

theorem heapGet_append_self (h : Heap) (x : Dict) : heapGet (h ++ [x]) h.length = x := by
  induction h with
  | nil => rfl
  | cons d rest ih => simpa [heapGet] using ih

theorem update_fst_input_tree (a : Automaton) (i : Intent) :
    (a.update i).1.input_tree = a.input_tree := by
  cases i <;> rfl

theorem update_fst_location_id (a : Automaton) (i : Intent) :
    (a.update i).1.state.location_id = a.state.location_id := by
  cases i <;> rfl

theorem runIntents_input_tree (intents : List Intent) (a : Automaton) :
    (runIntents a intents).input_tree = a.input_tree := by
  induction intents generalizing a with
  | nil => rfl
  | cons i rest ih => rw [runIntents, ih, update_fst_input_tree]

theorem runIntents_location_id (intents : List Intent) (a : Automaton) :
    (runIntents a intents).state.location_id = a.state.location_id := by
  induction intents generalizing a with
  | nil => rfl
  | cons i rest ih => rw [runIntents, ih, update_fst_location_id]

/-! Claim theorems. -/

/-- C1: `create_input_tree` is claimed to index the root and every
descendant reachable via declared children. On the root `doSelection`,
which declares the Option child `eat`, the produced Input Tree Index
contains only the root id `do`; resolving the declared child id `eat`
finds nothing, so the claim fails on the code (the traversal body that
would enqueue children is commented out in the source). -/
theorem kor_c1_input_tree_misses_declared_child :
    create_input_tree doSelection = .ok { id_to_input := [("do", doSelection)] } ∧
    (create_input_tree doSelection).map (fun t => t.resolve eatOption.id) = .ok none ∧
    (create_input_tree doSelection).map (fun t => t.resolve "do") = .ok (some doSelection) :=
  ⟨rfl, rfl, rfl⟩

/-- C5: `create_input_tree` fails with a `SchemaError` if and only if the
root's variant is not one of Option, Selection, Form; for the three
supported variants it returns an index without failing. -/
theorem kor_c5_create_input_tree_error_iff_unsupported (e : Element) :
    (∃ s, create_input_tree e = .error s) ↔ ∃ t i, e = .other t i := by
  cases e <;> simp [create_input_tree, Element.isSupportedRoot]

/-- C2: `KorParser.parse` never raises (it is a total function in this
embedding); when the encoder's decode fails with a `ParseError`, it returns
a result with empty `data` and `validated_data`, the decode error as the
sole entry in `errors`, and `raw` equal to the input text. -/
theorem kor_c2_parse_decode_error_recovered (p : KorParser) (text : String) (e : ParseError)
    (h : p.decode text = .error e) :
    p.parse text = { data := [], raw := text, errors := [.parse e], validated_data := [] } := by
  simp [KorParser.parse, h]

/-- Witness for C2 on a parser whose encoder always fails. -/
theorem kor_c2_witness :
    pFail.decode "oops" = .error { message := "malformed" } ∧
    pFail.parse "oops" =
      { data := [], raw := "oops", errors := [.parse { message := "malformed" }],
        validated_data := [] } :=
  ⟨rfl, kor_c2_parse_decode_error_recovered pFail "oops" _ rfl⟩

/-- C3: when the decoded mapping lacks the schema node's id, `parse`
returns exactly one schema-mismatch error with empty `data` and
`validated_data` if the mapping is non-empty, and a result with empty
`data`, empty `errors` and empty `validated_data` if the mapping is empty. -/
theorem kor_c3_parse_schema_id_absent (p : KorParser) (text : String) (d : Dict)
    (hdec : p.decode text = .ok d) (habs : dictGet d p.schema_.id = none) :
    (d ≠ [] → p.parse text =
      { data := [], raw := text, errors := [schemaMismatchError], validated_data := [] }) ∧
    (d = [] → p.parse text =
      { data := [], raw := text, errors := [], validated_data := [] }) := by
  constructor
  · intro hne
    have hie : d.isEmpty = false := by cases d <;> simp_all
    simp [KorParser.parse, hdec, habs, hie]
  · intro he
    subst he
    simp [KorParser.parse, hdec, habs]

/-- Witness for C3 on a non-empty unrelated decode and on an empty decode. -/
theorem kor_c3_witness :
    pUnrelated.parse "t" =
      { data := [], raw := "t", errors := [schemaMismatchError], validated_data := [] } ∧
    pEmptyDecode.parse "t" =
      { data := [], raw := "t", errors := [], validated_data := [] } :=
  ⟨(kor_c3_parse_schema_id_absent pUnrelated "t" _ rfl rfl).1 (by simp),
   (kor_c3_parse_schema_id_absent pEmptyDecode "t" _ rfl rfl).2 rfl⟩

/-- C4: when the decoded mapping contains the schema node's id, the result's
`data` is the decoded mapping and so carries the sub-value under that id;
with a configured Validator, `validated_data` and `errors` come from running
its `clean_data` over that sub-value, and without one both are empty. -/
theorem kor_c4_parse_schema_id_present (p : KorParser) (text : String) (d : Dict) (v : PyVal)
    (hdec : p.decode text = .ok d) (hmem : dictGet d p.schema_.id = some v) :
    (p.parse text).data = d ∧
    dictGet (p.parse text).data p.schema_.id = some v ∧
    (p.parse text).raw = text ∧
    (∀ val, p.validator = some val →
      (p.parse text).validated_data = (val.clean_data v).1 ∧
      (p.parse text).errors = (val.clean_data v).2) ∧
    (p.validator = none →
      (p.parse text).validated_data = [] ∧ (p.parse text).errors = []) := by
  cases hval : p.validator with
  | none => simp [KorParser.parse, hdec, hmem, hval]
  | some val => simp [KorParser.parse, hdec, hmem, hval]

/-- Witness for C4 on a decode that contains the schema id `s`. -/
theorem kor_c4_witness :
    (pHit.parse "t").data = [("s", PyVal.str "v"), ("x", PyVal.str "w")] ∧
    dictGet (pHit.parse "t").data "s" = some (.str "v") ∧
    (pHit.parse "t").raw = "t" ∧
    (pHit.parse "t").validated_data = [] ∧
    (pHit.parse "t").errors = [] := by
  obtain ⟨h1, h2, h3, _, h5⟩ :=
    kor_c4_parse_schema_id_present pHit "t" [("s", PyVal.str "v"), ("x", PyVal.str "w")]
      (.str "v") rfl rfl
  exact ⟨h1, h2, h3, (h5 rfl).1, (h5 rfl).2⟩

/-- C6: in every automaton state reachable from construction by any
sequence of `update` calls, `location_id` resolves in the Input Tree
Index. -/
theorem kor_c6_location_id_always_resolves (e : Element) (a : Automaton)
    (h : mkAutomaton e = .ok a) (intents : List Intent) :
    ((runIntents a intents).input_tree.resolve
      (runIntents a intents).state.location_id).isSome := by
  rw [runIntents_input_tree, runIntents_location_id]
  by_cases hs : e.isSupportedRoot
  · simp only [mkAutomaton, create_input_tree, hs, if_true, Except.map] at h
    cases h
    simp [InputTree.resolve, bfsLoop, dictInsert, dictGet]
  · simp [mkAutomaton, create_input_tree, hs, Except.map] at h

/-- Witness for C6 on the automaton built from a Form root, driven by one
update intent and one no-op intent. -/
theorem kor_c6_witness :
    ((runIntents stuffAutomaton demoIntents).input_tree.resolve
      (runIntents stuffAutomaton demoIntents).state.location_id).isSome :=
  kor_c6_location_id_always_resolves stuffForm stuffAutomaton rfl demoIntents

/-- C7: `State.update`, run over a heap of dict objects, leaves the dict of
the original State untouched at its old address, returns a State pointing
at a fresh address holding exactly the merge computed by the embedded
`State.update`, and that merge is a superset of the prior information in
which precisely the keys of the new information are overwritten to its
values while all other keys keep their prior values. -/
theorem kor_c7_state_update_merge_no_mutation (h : Heap) (s : HState) (new : Dict)
    (hlt : s.info_addr < h.length) (hnd : (new.map Prod.fst).Nodup) :
    heapGet (pyStateUpdate h s new).1 s.info_addr = heapGet h s.info_addr ∧
    (pyStateUpdate h s new).2.info_addr ≠ s.info_addr ∧
    heapGet (pyStateUpdate h s new).1 (pyStateUpdate h s new).2.info_addr =
      (State.update { location_id := s.location_id, information := heapGet h s.info_addr }
        new).information ∧
    (∀ k, (dictGet (heapGet h s.info_addr) k).isSome →
      (dictGet (heapGet (pyStateUpdate h s new).1 (pyStateUpdate h s new).2.info_addr)
        k).isSome) ∧
    (∀ k v, dictGet new k = some v →
      dictGet (heapGet (pyStateUpdate h s new).1 (pyStateUpdate h s new).2.info_addr) k =
        some v) ∧
    (∀ k, dictGet new k = none →
      dictGet (heapGet (pyStateUpdate h s new).1 (pyStateUpdate h s new).2.info_addr) k =
        dictGet (heapGet h s.info_addr) k) := by
  have hfresh : heapGet (pyStateUpdate h s new).1 (pyStateUpdate h s new).2.info_addr =
      dictUpdate (heapGet h s.info_addr) new := by
    simpa [pyStateUpdate] using
      heapGet_append_self h (dictUpdate (heapGet h s.info_addr) new)
  refine ⟨?_, ?_, ?_, ?_, ?_, ?_⟩
  · simpa [pyStateUpdate] using
      heapGet_append_lt h (dictUpdate (heapGet h s.info_addr) new) s.info_addr hlt
  · simpa [pyStateUpdate] using (Nat.ne_of_lt hlt).symm
  · rw [hfresh]; rfl
  · intro k hk
    rw [hfresh]
    exact dictGet_update_isSome _ new k hk
  · intro k v hkv
    rw [hfresh]
    exact dictGet_update_mem _ new k v hnd hkv
  · intro k hk
    rw [hfresh]
    exact dictGet_update_not_mem _ new k hk

/-- Witness for C7 on a one-dict heap and a one-entry merge. -/
theorem kor_c7_witness :
    (0 : Nat) < demoHeap.length ∧
    (([("b", PyVal.str "2")] : Dict).map Prod.fst).Nodup ∧
    heapGet (pyStateUpdate demoHeap { location_id := "loc", info_addr := 0 }
      [("b", PyVal.str "2")]).1 0 = heapGet demoHeap 0 :=
  ⟨by decide, by simp,
   (kor_c7_state_update_merge_no_mutation demoHeap
     { location_id := "loc", info_addr := 0 } [("b", PyVal.str "2")]
     (by decide) (by simp)).1⟩

/-- C8: applying `NoOpIntent` any number of times leaves the automaton (its
State and its history) unchanged, and each application returns the automaton
together with a failure Message saying the input was not understood. -/
theorem kor_c8_noop_idempotent (a : Automaton) (n : Nat) :
    applyNoOpN a n = a ∧
    ((applyNoOpN a n).update .noOpIntent).1.state = a.state ∧
    ((applyNoOpN a n).update .noOpIntent).1.past_states = a.past_states ∧
    ((applyNoOpN a n).update .noOpIntent).2.2 =
      { content := "Sorry I didn\x27t catch that.", success := false } := by
  have key : applyNoOpN a n = a := by
    induction n with
    | zero => rfl
    | succ m ih =>
      rw [applyNoOpN, ih]
      rfl
  exact ⟨key, by rw [key]; rfl, by rw [key]; rfl, by rw [key]; rfl⟩

/-- C9: on an `UpdateIntent`, `Automaton.update` pushes the old State onto
the history (which grows by exactly one), replaces the current State with
the merge of the intent's information, and returns that merged State with a
success Message reporting the new information snapshot. -/
theorem kor_c9_update_intent_pushes_history (a : Automaton) (loc : String) (info : Dict) :
    (a.update (.updateIntent loc info)).1.past_states = a.past_states ++ [a.state] ∧
    (a.update (.updateIntent loc info)).1.past_states.length = a.past_states.length + 1 ∧
    (a.update (.updateIntent loc info)).1.state = a.state.update info ∧
    (a.update (.updateIntent loc info)).2.1 = a.state.update info ∧
    (a.update (.updateIntent loc info)).2.2 =
      { content := "OK! Updated. The new state is: " ++
          reprPyVal (.dict (a.state.update info).information) ++ ".",
        success := true } :=
  ⟨rfl, by simp [Automaton.update], rfl, rfl, rfl⟩

/-- C10: `Automaton.update` leaves `location_id` unchanged for every intent
variant, and the `location_id` field carried by an `UpdateIntent` has no
effect on the outcome. -/
theorem kor_c10_location_id_frame (a : Automaton) (i : Intent) :
    (a.update i).1.state.location_id = a.state.location_id ∧
    (a.update i).2.1.location_id = a.state.location_id ∧
    (∀ loc loc2 info, a.update (.updateIntent loc info) = a.update (.updateIntent loc2 info)) := by
  refine ⟨?_, ?_, fun loc loc2 info => rfl⟩ <;> cases i <;> rfl

end Kor
